import Mathlib

/-!
Verification of the AnyTLS session pool manager
(`transport/anytls/session/client.go`, `adapter/outbound/anytls.go`,
`constant` session-management config) against its specification.

Times and durations are modelled as `Int` nanoseconds (Go `time.Duration`
is an `int64` nanosecond count; `time.Time` comparisons `Before`/`After`
are `<`/`>` on instants).  Machine `int64`/`uint64` arithmetic is made
explicit where the source relies on it (`int64(session.seq)` conversion,
Go's truncated `%`).
-/

namespace AnyTLS

/-- The constant `2^63`, first value outside the `int64` range. -/
def i64Half : Int := 9223372036854775808

/-- The constant `2^64`. -/
def u64Mod : Nat := 18446744073709551616

/-- Largest `uint64` value, `math.MaxUint64`. -/
def maxUint64 : Nat := 18446744073709551615

/-- Go's conversion `int64(x)` of a `uint64` value `x` (two's complement
reinterpretation). -/
def int64OfUint64 (n : Nat) : Int :=
  if n % u64Mod < 2 ^ 63 then ((n % u64Mod : Nat) : Int)
  else ((n % u64Mod : Nat) : Int) - (u64Mod : Int)

/-- Wrap an unbounded integer into the `int64` range, as Go's two's
complement arithmetic does on overflow. -/
def wrap64 (i : Int) : Int := (i + i64Half) % (u64Mod : Int) - i64Half

/-- One nanosecond per unit; `time.Second` in the model. -/
def second : Int := 1000000000

/-- The fields of a pooled session that the manager reads and writes:
sequence number (`uint64`), creation instant, idle-since instant
(`Session.seq`, `Session.createdAt`, `Session.idleSince`). -/
structure Session where
  seq : Nat
  createdAt : Int
  idleSince : Int
deriving Repr, DecidableEq

/-- Configuration `session.ClientConfig` / the pool-relevant fields of
`session.Client`.  Durations in nanoseconds, counts as Go `int`
(modelled `Int`). -/
structure ClientConfig where
  idleSessionCheckInterval : Int
  idleSessionTimeout : Int
  minIdleSession : Int
  ensureIdleSession : Int
  ensureIdleSessionCreateRate : Int
  minIdleSessionForAge : Int
  maxConnectionLifetime : Int
  connectionLifetimeJitter : Int
deriving Repr, DecidableEq

/-- The default-promotion performed by `session.NewClient` (client.go:76-82):
a check interval `≤ 5s` becomes `30s`, an idle timeout `≤ 5s` becomes `30s`;
every other field is copied unchanged into the client. -/
def newClientNormalize (c : ClientConfig) : ClientConfig :=
  { c with
    idleSessionCheckInterval :=
      if c.idleSessionCheckInterval ≤ 5 * second then 30 * second
      else c.idleSessionCheckInterval
    idleSessionTimeout :=
      if c.idleSessionTimeout ≤ 5 * second then 30 * second
      else c.idleSessionTimeout }

/-- The per-session effective lifetime computed inside `Client.cleanup`
(client.go:227-233): starting from `maxConnectionLifetime`, when
`connectionLifetimeJitter > 0` it adds
`int64(session.seq) % (jitterRange*2) - jitter`, with Go `int64`
arithmetic (truncated remainder, wrap on overflow). -/
def sessionLifetime (c : ClientConfig) (seq : Nat) : Int :=
  if 0 < c.connectionLifetimeJitter then
    let jitterRange := c.connectionLifetimeJitter
    let jitterOffset := (int64OfUint64 seq).tmod (wrap64 (jitterRange * 2))
    wrap64 (c.maxConnectionLifetime - c.connectionLifetimeJitter + jitterOffset)
  else
    c.maxConnectionLifetime

/-- The test `session.idleSince.Before(idleExpTime)` with
`idleExpTime = now.Add(-idleSessionTimeout)` (client.go:195,213). -/
def idleExpired (c : ClientConfig) (now : Int) (s : Session) : Bool :=
  s.idleSince < now - c.idleSessionTimeout

/-- The test `now.After(session.createdAt.Add(sessionLifetime))`
(client.go:235-236). -/
def ageExpired (c : ClientConfig) (now : Int) (s : Session) : Bool :=
  s.createdAt + sessionLifetime c s.seq < now

/-- Outcome of the scan-loop body for one visited session: removed for
idle timeout, removed for age, or kept (with `reset = true` when its
`idleSince` was rewritten to the tick time). -/
inductive Decision
  | closeIdle
  | closeAge
  | keep (reset : Bool)
deriving Repr, DecidableEq

/-- The two retention counters `idleActiveCount` / `ageActiveCount` of one
cleanup tick (client.go:199-200). -/
structure ScanState where
  idleActive : Int
  ageActive : Int
deriving Repr, DecidableEq

/-- The idle-timeout part of the scan-loop body (client.go:212-222):
returns `(shouldCloseIdle, idleActiveCount afterwards, reset?)`, where
`reset?` records whether `session.idleSince` was rewritten to `now`. -/
def idleDecision (c : ClientConfig) (now : Int) (idleActive : Int)
    (s : Session) : Bool × Int × Bool :=
  if idleExpired c now s then
    if c.minIdleSession ≤ idleActive then (true, idleActive, false)
    else (false, idleActive + 1, true)
  else (false, idleActive + 1, false)

/-- The age part of the scan-loop body (client.go:224-243): given the
idle phase's `shouldCloseIdle`, returns `(shouldCloseAge, ageActiveCount
afterwards)`. -/
def ageDecision (c : ClientConfig) (now : Int) (ageActive : Int)
    (shouldCloseIdle : Bool) (s : Session) : Bool × Int :=
  if 0 < c.maxConnectionLifetime ∧ shouldCloseIdle = false then
    if ageExpired c now s then
      if c.minIdleSessionForAge ≤ ageActive then (true, ageActive)
      else (false, ageActive + 1)
    else (false, ageActive)
  else (false, ageActive)

/-- One iteration of the scan loop in `Client.cleanup` (client.go:204-253):
the idle-timeout decision, then (when age rotation is enabled and the
session was not marked for idle close) the age decision. -/
def cleanupStep (c : ClientConfig) (now : Int) (st : ScanState) (s : Session) :
    Decision × ScanState :=
  let idle := idleDecision c now st.idleActive s
  let age := ageDecision c now st.ageActive idle.1 s
  let d :=
    if idle.1 then Decision.closeIdle
    else if age.1 then Decision.closeAge
    else Decision.keep idle.2.2
  (d, ⟨idle.2.1, age.2⟩)

/-- The whole scan of the idle pool, visited in iteration order
(newest-first in the skiplist), recording each session's decision and
threading the two counters. -/
def cleanupScan (c : ClientConfig) (now : Int) :
    ScanState → List Session → List (Session × Decision) × ScanState
  | st, [] => ([], st)
  | st, s :: rest =>
    let r := cleanupStep c now st s
    let tl := cleanupScan c now r.2 rest
    ((s, r.1) :: tl.1, tl.2)

/-- Sessions removed and closed by the idle phase of one tick
(`idleSessionsToClose`). -/
def idleClosed (c : ClientConfig) (now : Int) (pool : List Session) :
    List Session :=
  (cleanupScan c now ⟨0, 0⟩ pool).1.filterMap fun p =>
    if p.2 = Decision.closeIdle then some p.1 else none

/-- Sessions removed and closed by the age phase of one tick
(`ageSessionsToClose`). -/
def ageClosed (c : ClientConfig) (now : Int) (pool : List Session) :
    List Session :=
  (cleanupScan c now ⟨0, 0⟩ pool).1.filterMap fun p =>
    if p.2 = Decision.closeAge then some p.1 else none

/-- The idle pool after one tick: kept sessions in order, with
`idleSince` rewritten to the tick time for those the reset branch
touched (client.go:217). -/
def poolAfterTick (c : ClientConfig) (now : Int) (pool : List Session) :
    List Session :=
  (cleanupScan c now ⟨0, 0⟩ pool).1.filterMap fun p =>
    match p.2 with
    | Decision.keep true => some { p.1 with idleSince := now }
    | Decision.keep false => some p.1
    | _ => none

/-- A session is age-eligible at a visit (in the sense of the age branch
actually firing): rotation enabled, not marked for idle close at the
current counter value, and past its effective lifetime. -/
def ageEligibleAt (c : ClientConfig) (now : Int) (st : ScanState)
    (s : Session) : Bool :=
  decide (0 < c.maxConnectionLifetime) &&
    !(idleExpired c now s && decide (c.minIdleSession ≤ st.idleActive)) &&
    ageExpired c now s

/-- Number of age-eligible sessions over one tick's scan, threading the
counters exactly as the scan does. -/
def ageEligibleCount (c : ClientConfig) (now : Int) :
    ScanState → List Session → Nat
  | _, [] => 0
  | st, s :: rest =>
    (if ageEligibleAt c now st s then 1 else 0) +
      ageEligibleCount c now (cleanupStep c now st s).2 rest

/-! ### The idle pool (`skiplist.SkipList[uint64, *Session]`)

Modelled as an association list sorted by strictly ascending key; the
skiplist's `Iterate()` starts at the smallest key. -/

/-- Ordered insert into the key-sorted pool; `Client` only ever inserts a
session under the key `math.MaxUint64 - session.seq`
(client.go:124,308). -/
def poolInsert (key : Nat) (s : Session) :
    List (Nat × Session) → List (Nat × Session)
  | [] => [(key, s)]
  | (k, v) :: rest =>
    if key < k then (key, s) :: (k, v) :: rest
    else if key = k then (key, s) :: rest
    else (k, v) :: poolInsert key s rest

/-- The insertion the client performs: key `math.MaxUint64 - seq`. -/
def idleInsert (pool : List (Nat × Session)) (s : Session) :
    List (Nat × Session) :=
  poolInsert (maxUint64 - s.seq) s pool

/-- Function `Client.getIdleSession` (client.go:133-142): if the pool is
non-empty, take the iterator's first element (smallest key), remove it,
and return its session. -/
def getIdleSession :
    List (Nat × Session) → Option Session × List (Nat × Session)
  | [] => (none, [])
  | (_, v) :: rest => (some v, rest)

/-- Well-formed pool: keys strictly ascending, every entry stored under
`math.MaxUint64 - seq` of its session, and every `seq` a `uint64`
value. -/
def PoolWF (pool : List (Nat × Session)) : Prop :=
  pool.Pairwise (fun a b => a.1 < b.1) ∧
    ∀ p ∈ pool, p.1 = maxUint64 - p.2.seq ∧ p.2.seq ≤ maxUint64

instance : DecidablePred PoolWF := fun pool => by
  unfold PoolWF; infer_instance

/-! ### `Client.CreateStream` (client.go:90-131)

The dial and the stream-open are external collaborators; they enter the
model as oracle arguments.  The result records the error or the session
serving the stream, the idle pool afterwards, and how many dials the
call performed. -/

/-- Error outcomes of `CreateStream`: `io.ErrClosedPipe` when the client
is already dead, the wrapped dial failure, the wrapped open failure. -/
inductive StreamError
  | closedPipe
  | createSessionFailed
  | createStreamFailed
deriving Repr, DecidableEq

/-- Result of one `CreateStream` call. -/
structure CreateStreamResult where
  result : Except StreamError Session
  pool : List (Nat × Session)
  dials : Nat
deriving Repr

/-- Function `Client.CreateStream`: fail with the pipe-closed error when the die
context is done; otherwise pop the idle pool, dial only when the pop
found nothing, and open a stream on the obtained session. -/
def createStream (died : Bool) (pool : List (Nat × Session))
    (dialResult : Option Session) (openOk : Session → Bool) :
    CreateStreamResult :=
  if died then ⟨Except.error StreamError.closedPipe, pool, 0⟩
  else
    let popped := getIdleSession pool
    match popped.1 with
    | some s =>
      if openOk s then ⟨Except.ok s, popped.2, 0⟩
      else ⟨Except.error StreamError.createStreamFailed, popped.2, 0⟩
    | none =>
      match dialResult with
      | none => ⟨Except.error StreamError.createSessionFailed, popped.2, 1⟩
      | some s =>
        if openOk s then ⟨Except.ok s, popped.2, 1⟩
        else ⟨Except.error StreamError.createStreamFailed, popped.2, 1⟩

/-! ### Manager state machine

Sessions are identified by their sequence number.  Each step is one
lock-protected block of the source; the states between steps are the
observable moments outside the critical sections. -/

/-- Observable manager state: the die-context flag, the registry
(`Client.sessions`), the idle pool (as the set of pooled seqs), plus
ghost tracking of which seqs were ever created and which sessions have
closed. -/
structure MState where
  cancelled : Bool
  registry : Finset ℕ
  idle : Finset ℕ
  created : Finset ℕ
  closed : Finset ℕ
deriving DecidableEq

/-- Fresh manager (`NewClient`): nothing created, die context live. -/
def initState : MState := ⟨false, ∅, ∅, ∅, ∅⟩

/-- The manager's operations other than `Close`, one constructor per
lock-protected block of the source. -/
inductive OpStep : MState → MState → Prop
  /-- Path `createSession` success (client.go:150-167): fresh seq assigned by
  the atomic counter, session registered in `c.sessions`. -/
  | create (st : MState) (s : ℕ) :
      s ∉ st.created →
      OpStep st { st with created := insert s st.created,
                          registry := insert s st.registry }
  /-- Stream die-hook return path (client.go:116-126): session not
  closed, die context not done, session inserted into the idle pool. -/
  | returnToPool (st : MState) (s : ℕ) :
      s ∈ st.created → s ∉ st.closed → st.cancelled = false →
      OpStep st { st with idle := insert s st.idle }
  /-- The proactive creator's insertion (client.go:306-309): after a
  successful dial the session is put into the idle pool unconditionally —
  the code checks neither the die context nor the session's own closed
  state on this path. -/
  | proactiveInsert (st : MState) (s : ℕ) :
      s ∈ st.created →
      OpStep st { st with idle := insert s st.idle }
  /-- A session's die-hook (client.go:153-161), fired when the session
  closes: remove from the idle pool and from the registry. -/
  | sessionDie (st : MState) (s : ℕ) :
      s ∈ st.created → s ∉ st.closed →
      OpStep st { st with closed := insert s st.closed,
                          idle := st.idle.erase s,
                          registry := st.registry.erase s }
  /-- Removal of an idle session, by `getIdleSession`'s pop
  (client.go:133-142) or by the cleanup scan (client.go:252). -/
  | removeIdle (st : MState) (s : ℕ) :
      s ∈ st.idle →
      OpStep st { st with idle := st.idle.erase s }

/-- A manager step: an ordinary operation, or the lock-protected part of
`Client.Close` (client.go:171-180): cancel the die context, snapshot the
registry and empty it.  The snapshotted sessions are closed afterwards,
outside the lock, as `sessionDie` steps. -/
inductive Step : MState → MState → Prop
  | op {st st' : MState} : OpStep st st' → Step st st'
  | closeMgr (st : MState) :
      Step st { st with cancelled := true, registry := ∅ }

/-- States reachable from the fresh manager by ordinary operations only
(no `Close`). -/
inductive ReachOp : MState → Prop
  | init : ReachOp initState
  | step {st st' : MState} : ReachOp st → OpStep st st' → ReachOp st'

/-- States reachable from the fresh manager by arbitrary steps. -/
inductive Reach : MState → Prop
  | init : Reach initState
  | step {st st' : MState} : Reach st → Step st st' → Reach st'

/-- States reachable by non-`Close` operations along an execution in
which no step pools an already-closed session: every step additionally
satisfies the side condition that any closed session in the resulting
idle pool was already in the pool before the step.  This side condition
is a property of the interleaving, not of the code — the proactive
insertion performs no `IsClosed` check, so the code does not enforce
it. -/
inductive ReachOpLive : MState → Prop
  | init : ReachOpLive initState
  | step {st st' : MState} : ReachOpLive st → OpStep st st' →
      (∀ s, s ∈ st.closed → s ∈ st'.idle → s ∈ st.idle) →
      ReachOpLive st'

/-- Inductive invariant of the pre-shutdown system: die context live,
the registry is exactly the live (created, not closed) sessions, and the
idle pool is contained in the registry. -/
def MInv (st : MState) : Prop :=
  st.cancelled = false ∧ st.registry = st.created \ st.closed ∧
    st.closed ⊆ st.created ∧ st.idle ⊆ st.registry

/-- The body of one proactive creator goroutine after `dialOut` returns
(client.go:299-309), as a function of the dial's outcome: on error,
nothing; on success, `createSession`'s registration followed by the
unconditional insertion into the idle pool.  The goroutine never reads
`st.cancelled`. -/
def proactiveFinish (st : MState) (dialResult : Option ℕ) : MState :=
  match dialResult with
  | none => st
  | some s =>
    { st with created := insert s st.created,
              registry := insert s st.registry,
              idle := insert s st.idle }

/-! ### Configuration merge (`NewAnyTLS`, adapter, and the config structs) -/

/-- Struct `constant.AnyTLSSessionManagement`: the global session-management
config block; duration fields are `time.Duration` (nanoseconds). -/
structure SessionManagement where
  ensureIdleSession : Int
  minIdleSession : Int
  minIdleSessionForAge : Int
  ensureIdleSessionCreateRate : Int
  maxConnectionLifetime : Int
  connectionLifetimeJitter : Int
  idleSessionTimeout : Int
  idleSessionCheckInterval : Int
deriving Repr, DecidableEq

/-- Struct `AnyTLSSessionOverride`: per-proxy overrides, nullable; durations are
integer seconds. -/
structure SessionOverride where
  ensureIdleSession : Option Int
  minIdleSession : Option Int
  minIdleSessionForAge : Option Int
  ensureIdleSessionCreateRate : Option Int
  maxConnectionLifetime : Option Int
  connectionLifetimeJitter : Option Int
  idleSessionTimeout : Option Int
  idleSessionCheckInterval : Option Int
deriving Repr, DecidableEq

/-- The pool-relevant fields of `AnyTLSOption`: the legacy per-proxy
integers (seconds) and the optional override block. -/
structure AnyTLSOption where
  idleSessionCheckInterval : Int
  idleSessionTimeout : Int
  minIdleSession : Int
  sessionOverride : Option SessionOverride
deriving Repr, DecidableEq

/-- The merge performed by `NewAnyTLS` (adapter, lines 148-199): start
from the zero config, copy the global block when present, overwrite the
three legacy fields when the legacy value is `> 0` (scaled to seconds),
then overwrite each field whose override is non-null (overridden
durations scaled to seconds, counts taken as-is). -/
def mergeSessionConfig (globalCfg : Option SessionManagement)
    (option : AnyTLSOption) : ClientConfig :=
  let base : ClientConfig := ⟨0, 0, 0, 0, 0, 0, 0, 0⟩
  let afterGlobal :=
    match globalCfg with
    | none => base
    | some g =>
      { base with
        idleSessionCheckInterval := g.idleSessionCheckInterval
        idleSessionTimeout := g.idleSessionTimeout
        minIdleSession := g.minIdleSession
        ensureIdleSession := g.ensureIdleSession
        ensureIdleSessionCreateRate := g.ensureIdleSessionCreateRate
        minIdleSessionForAge := g.minIdleSessionForAge
        maxConnectionLifetime := g.maxConnectionLifetime
        connectionLifetimeJitter := g.connectionLifetimeJitter }
  let afterLegacy :=
    { afterGlobal with
      idleSessionCheckInterval :=
        if 0 < option.idleSessionCheckInterval then
          option.idleSessionCheckInterval * second
        else afterGlobal.idleSessionCheckInterval
      idleSessionTimeout :=
        if 0 < option.idleSessionTimeout then
          option.idleSessionTimeout * second
        else afterGlobal.idleSessionTimeout
      minIdleSession :=
        if 0 < option.minIdleSession then option.minIdleSession
        else afterGlobal.minIdleSession }
  match option.sessionOverride with
  | none => afterLegacy
  | some ov =>
    { afterLegacy with
      ensureIdleSession :=
        (ov.ensureIdleSession).getD afterLegacy.ensureIdleSession
      minIdleSession :=
        (ov.minIdleSession).getD afterLegacy.minIdleSession
      minIdleSessionForAge :=
        (ov.minIdleSessionForAge).getD afterLegacy.minIdleSessionForAge
      ensureIdleSessionCreateRate :=
        (ov.ensureIdleSessionCreateRate).getD
          afterLegacy.ensureIdleSessionCreateRate
      maxConnectionLifetime :=
        match ov.maxConnectionLifetime with
        | some v => v * second
        | none => afterLegacy.maxConnectionLifetime
      connectionLifetimeJitter :=
        match ov.connectionLifetimeJitter with
        | some v => v * second
        | none => afterLegacy.connectionLifetimeJitter
      idleSessionTimeout :=
        match ov.idleSessionTimeout with
        | some v => v * second
        | none => afterLegacy.idleSessionTimeout
      idleSessionCheckInterval :=
        match ov.idleSessionCheckInterval with
        | some v => v * second
        | none => afterLegacy.idleSessionCheckInterval }

/-- The effective configuration reaching the pool manager: the merge
result as accepted and normalized by `session.NewClient`.  (The
`anytls.Client` wrapper between the adapter and `session.NewClient` is
not part of this excerpt; per the spec the merged fields collapse
unchanged into the one effective pool config.) -/
def effectiveConfig (globalCfg : Option SessionManagement)
    (option : AnyTLSOption) : ClientConfig :=
  newClientNormalize (mergeSessionConfig globalCfg option)

/-- Spec-side field selector for a duration with all three layers
(override in seconds, else legacy in seconds when `> 0`, else global):
used to compare the source merge against the spec's description. -/
def specLayeredDur3 (globalV legacyV : Int) (ov : Option Int) : Int :=
  match ov with
  | some v => v * second
  | none => if 0 < legacyV then legacyV * second else globalV

/-- Spec-side selector for a count with all three layers. -/
def specLayeredCount3 (globalV legacyV : Int) (ov : Option Int) : Int :=
  match ov with
  | some v => v
  | none => if 0 < legacyV then legacyV else globalV

/-- Spec-side selector for a duration with no legacy layer. -/
def specLayeredDur2 (globalV : Int) (ov : Option Int) : Int :=
  match ov with
  | some v => v * second
  | none => globalV

/-- Spec-side selector for a count with no legacy layer. -/
def specLayeredCount2 (globalV : Int) (ov : Option Int) : Int :=
  ov.getD globalV

/-! ### Concrete fixtures used by witnesses and counterexamples -/

/-- Config of the spec's idle-eviction scenario: timeout 30s, minimum 2
idle sessions, age rotation off. -/
def cfgIdle5 : ClientConfig := ⟨0, 30 * second, 2, 0, 0, 0, 0, 0⟩

/-- A session of the idle-eviction scenario: idle since 60s before the
tick at t = 100s. -/
def idleSess (i : Nat) : Session := ⟨i, 0, 40 * second⟩

/-- The five preloaded idle sessions, newest-first as the scan visits
them. -/
def poolIdle5 : List Session :=
  [idleSess 5, idleSess 4, idleSess 3, idleSess 2, idleSess 1]

/-- Tick instant of the idle-eviction scenario. -/
def tickNow : Int := 100 * second

/-- Jitter config used for the sequence-conversion counterexample:
lifetime 100ns, jitter 3ns. -/
def cfgJit : ClientConfig := ⟨0, 0, 0, 0, 0, 0, 100, 3⟩

/-- Config exercising the age phase: rotation 10s, age floor 2, no idle
floor. -/
def cfgAge : ClientConfig := ⟨0, 30 * second, 0, 0, 0, 2, 10 * second, 0⟩

/-- An age-expired but idle-fresh session at t = 100s: created 80s
before the tick, idle since the tick. -/
def agedSess : Session := ⟨1, 20 * second, 100 * second⟩

/-- Global config violating the documented jitter limit: lifetime 10s,
jitter 50s. -/
def gBadJitter : SessionManagement :=
  ⟨0, 0, 0, 0, 10 * second, 50 * second, 0, 0⟩

/-- A proxy option with no legacy values and no override block. -/
def optPlain : AnyTLSOption := ⟨0, 0, 0, none⟩

/-- Two-session well-formed idle pool for the pop-newest witness. -/
def poolTwo : List (Nat × Session) :=
  [(maxUint64 - 9, ⟨9, 0, 0⟩), (maxUint64 - 4, ⟨4, 0, 0⟩)]

/-- Manager state right after `Close()` on a fresh manager: cancelled,
empty registry and pool. -/
def stClosedMgr : MState := ⟨true, ∅, ∅, ∅, ∅⟩

/-- State after creating session 1 on a fresh manager. -/
def stOneCreated : MState := ⟨false, {1}, ∅, {1}, ∅⟩

/-- State after session 1 returned to the idle pool. -/
def stOneIdle : MState := ⟨false, {1}, {1}, {1}, ∅⟩

/-- State right after the lock-protected part of `Close()` with session
1 idle: registry emptied, pool not yet drained. -/
def stCloseRace : MState := ⟨true, ∅, {1}, {1}, ∅⟩

/-- State after session 1, created by a proactive dial, dies before the
creator's pool insertion: its death hook has emptied registry and
pool. -/
def stOneDead : MState := ⟨false, ∅, ∅, {1}, {1}⟩

/-- State after the proactive creator then inserts the already-dead
session 1: pooled but unregistered, with the manager not cancelled. -/
def stProactiveRace : MState := ⟨false, ∅, {1}, {1}, {1}⟩

/-- Config with both floors active: timeout 30s, idle floor 5, age floor
1, rotation 10s. -/
def cfgBoth : ClientConfig := ⟨0, 30 * second, 5, 0, 0, 1, 10 * second, 0⟩

/-- Counter state mid-scan: no idle retentions yet, one age retention. -/
def stMid : ScanState := ⟨0, 1⟩

/-- A session both idle-expired and age-expired at t = 100s. -/
def oldSess : Session := ⟨1, 0, 0⟩

/-! ## Theorems -/

/-- Integers already inside the `int64` range are fixed by `wrap64`. -/
theorem wrap64_of_bounds (i : Int) (hlo : -i64Half ≤ i) (hhi : i < i64Half) :
    wrap64 i = i := by
  unfold wrap64
  have hmod : (i + i64Half) % (u64Mod : Int) = i + i64Half := by
    apply Int.emod_eq_of_lt
    · unfold i64Half at hlo ⊢; omega
    · unfold i64Half at hhi ⊢; unfold u64Mod; push_cast; omega
  omega

/-- Sequence numbers below `2^63` convert to themselves. -/
theorem int64OfUint64_of_lt (n : Nat) (h : n < 2 ^ 63) :
    int64OfUint64 n = (n : Int) := by
  unfold int64OfUint64
  have hmod : n % u64Mod = n := by
    apply Nat.mod_eq_of_lt; unfold u64Mod; omega
  simp only [hmod]
  rw [if_pos h]

/-- C8: once the manager's die context is cancelled, `CreateStream`
returns the pipe-closed error immediately: the idle pool is not popped
(it is returned unchanged) and no dial happens, whatever the pool, the
dial oracle and the stream-open oracle would have done. -/
theorem createStream_after_close (pool : List (Nat × Session))
    (dialResult : Option Session) (openOk : Session → Bool) :
    createStream true pool dialResult openOk =
      ⟨Except.error StreamError.closedPipe, pool, 0⟩ := rfl

/-- C6: idle sessions are stored under the key `MAX_U64 - seq`, and a
pop on a non-empty well-formed pool yields the session whose `seq` is
largest among all pooled sessions (newest-first reuse). -/
theorem idle_pool_pop_newest :
    (∀ (pool : List (Nat × Session)) (s : Session),
        idleInsert pool s = poolInsert (maxUint64 - s.seq) s pool) ∧
    ∀ (pool rest : List (Nat × Session)) (s : Session),
      PoolWF pool → getIdleSession pool = (some s, rest) →
      ∀ p ∈ pool, p.2.seq ≤ s.seq := by
  refine ⟨fun _ _ => rfl, ?_⟩
  intro pool rest s hwf hpop p hp
  cases pool with
  | nil => simp [getIdleSession] at hpop
  | cons head tail =>
    obtain ⟨k, v⟩ := head
    obtain ⟨hsort, hkeys⟩ := hwf
    have hv : v = s := by
      have := congrArg Prod.fst hpop
      simpa [getIdleSession] using this
    subst hv
    rcases List.mem_cons.mp hp with hph | hpt
    · subst hph; exact le_refl _
    · have hklt : k < p.1 :=
        (List.pairwise_cons.mp hsort).1 p hpt
      have hk1 : k = maxUint64 - v.seq := hkeys (k, v) (List.mem_cons_self _ _) |>.1
      have h2 : v.seq ≤ maxUint64 := hkeys (k, v) (List.mem_cons_self _ _) |>.2
      have hpk := hkeys p (List.mem_cons_of_mem _ hpt)
      have hpk1 := hpk.1
      have h3 := hpk.2
      unfold maxUint64 at hk1 h2 hpk1 h3
      omega

/-- C6 witness: on the concrete two-session pool the popped session is
the one with `seq = 9`, the maximum. -/
theorem idle_pool_pop_newest_witness :
    ∀ p ∈ poolTwo, p.2.seq ≤ 9 :=
  idle_pool_pop_newest.2 poolTwo [(maxUint64 - 4, ⟨4, 0, 0⟩)] ⟨9, 0, 0⟩
    (by constructor
        · decide
        · decide)
    rfl

/-- C1: evaluation of the proactive creator's completion path at the
failing input.  On a manager already cancelled by `Close()`, a proactive
dial that succeeds with session 7 registers it and inserts it into the
idle pool; the session is not closed.  The claimed behavior — closing
the fresh session instead of pooling it — is absent from the code, which
never re-checks the die context on this path. -/
theorem proactive_insert_ignores_cancellation :
    (proactiveFinish stClosedMgr (some 7)).cancelled = true ∧
    7 ∈ (proactiveFinish stClosedMgr (some 7)).idle ∧
    7 ∈ (proactiveFinish stClosedMgr (some 7)).registry ∧
    7 ∉ (proactiveFinish stClosedMgr (some 7)).closed := by
  refine ⟨rfl, ?_, ?_, ?_⟩ <;> decide

/-- C4 counterexample: at `seq = 2^63` (with lifetime 100ns, jitter 3ns)
the code's `int64(seq)` conversion makes the Go remainder negative: the
effective lifetime is 95, while the claimed formula
`max - jitter + (seq mod 2*jitter)` gives 99, and the offset from
`max_connection_lifetime` is `-5`, outside `[-jitter, +jitter)`. -/
theorem sessionLifetime_seq_conversion_counterexample :
    sessionLifetime cfgJit 9223372036854775808 = 95 ∧
    cfgJit.maxConnectionLifetime - cfgJit.connectionLifetimeJitter +
        ((9223372036854775808 : Nat) : Int) %
          (2 * cfgJit.connectionLifetimeJitter) = 99 ∧
    sessionLifetime cfgJit 9223372036854775808 -
        cfgJit.maxConnectionLifetime < -cfgJit.connectionLifetimeJitter := by
  refine ⟨by decide, by decide, by decide⟩

/-- C4 (amended): for any configuration with jitter enabled and any
session whose `seq` is below `2^63`, provided the `int64` duration
arithmetic does not overflow (`jitter < 2^62`, `0 ≤ max`,
`max + jitter < 2^63`), the effective lifetime equals
`max - jitter + (seq mod 2*jitter)`, its offset from the configured
maximum lies in `[-jitter, +jitter)`, and the computation is a
deterministic function of `seq` and the config, so two evaluations of a
session's expiry instant agree. -/
theorem sessionLifetime_jitter_formula (c : ClientConfig) (seq : Nat)
    (hj : 0 < c.connectionLifetimeJitter)
    (hjB : c.connectionLifetimeJitter < 4611686018427387904)
    (hseq : seq < 2 ^ 63)
    (hm0 : 0 ≤ c.maxConnectionLifetime)
    (hmB : c.maxConnectionLifetime + c.connectionLifetimeJitter < i64Half) :
    sessionLifetime c seq =
      c.maxConnectionLifetime - c.connectionLifetimeJitter +
        (seq : Int) % (2 * c.connectionLifetimeJitter) ∧
    -c.connectionLifetimeJitter ≤
        sessionLifetime c seq - c.maxConnectionLifetime ∧
    sessionLifetime c seq - c.maxConnectionLifetime <
      c.connectionLifetimeJitter ∧
    ∀ s : Session, s.seq = seq →
      s.createdAt + sessionLifetime c s.seq =
        s.createdAt + sessionLifetime c seq := by
  have hseqI : (0 : Int) ≤ (seq : Int) := Int.ofNat_nonneg seq
  have hj2 : (0 : Int) < c.connectionLifetimeJitter * 2 := by omega
  have hwj : wrap64 (c.connectionLifetimeJitter * 2) =
      c.connectionLifetimeJitter * 2 := by
    apply wrap64_of_bounds
    · unfold i64Half; omega
    · unfold i64Half; omega
  have h64 := int64OfUint64_of_lt seq hseq
  have htm : (int64OfUint64 seq).tmod (c.connectionLifetimeJitter * 2) =
      (seq : Int) % (c.connectionLifetimeJitter * 2) := by
    rw [h64]; exact Int.tmod_eq_emod hseqI (le_of_lt hj2)
  have hoff0 : (0 : Int) ≤ (seq : Int) % (c.connectionLifetimeJitter * 2) :=
    Int.emod_nonneg _ (ne_of_gt hj2)
  have hoffB : (seq : Int) % (c.connectionLifetimeJitter * 2) <
      c.connectionLifetimeJitter * 2 := Int.emod_lt_of_pos _ hj2
  have hlife : sessionLifetime c seq =
      c.maxConnectionLifetime - c.connectionLifetimeJitter +
        (seq : Int) % (c.connectionLifetimeJitter * 2) := by
    unfold sessionLifetime
    rw [if_pos hj]
    simp only [hwj, htm]
    exact wrap64_of_bounds _ (by unfold i64Half; omega)
      (by unfold i64Half at hmB ⊢; omega)
  have hc : c.connectionLifetimeJitter * 2 = 2 * c.connectionLifetimeJitter :=
    mul_comm _ _
  refine ⟨by rw [hlife, hc], ?_, ?_, fun s hs => by rw [hs]⟩
  · rw [hlife]; omega
  · rw [hlife]; omega

/-- C4 witness: at lifetime 100ns, jitter 3ns, `seq = 7` the amended
theorem applies and yields an effective lifetime of 98ns with offset
`-2 ∈ [-3, 3)`. -/
theorem sessionLifetime_jitter_formula_witness :
    sessionLifetime cfgJit 7 =
      cfgJit.maxConnectionLifetime - cfgJit.connectionLifetimeJitter +
        ((7 : Nat) : Int) % (2 * cfgJit.connectionLifetimeJitter) ∧
    -cfgJit.connectionLifetimeJitter ≤
        sessionLifetime cfgJit 7 - cfgJit.maxConnectionLifetime ∧
    sessionLifetime cfgJit 7 - cfgJit.maxConnectionLifetime <
      cfgJit.connectionLifetimeJitter := by
  have h := sessionLifetime_jitter_formula cfgJit 7 (by decide) (by decide)
    (by decide) (by decide) (by decide)
  exact ⟨h.1, h.2.1, h.2.2.1⟩

/-- C2: in each scan step a session strictly older than
`now - idle_session_timeout` is marked for idle-close exactly when the
retained count has already reached `min_idle_session`; otherwise it is
reset (`idleSince := now`) and counted as retained, and a session within
the timeout is always counted as retained.  Concretely, with five
sessions all idle 60s, timeout 30s and floor 2, one tick closes exactly
the three oldest and keeps the two newest with `idleSince` set to the
tick time. -/
theorem idle_phase_retention :
    (∀ (c : ClientConfig) (now : Int) (st : ScanState) (s : Session),
      ((cleanupStep c now st s).1 = Decision.closeIdle ↔
        (s.idleSince < now - c.idleSessionTimeout ∧
          c.minIdleSession ≤ st.idleActive)) ∧
      (s.idleSince < now - c.idleSessionTimeout →
        st.idleActive < c.minIdleSession →
        idleDecision c now st.idleActive s =
          (false, st.idleActive + 1, true) ∧
        (cleanupStep c now st s).2.idleActive = st.idleActive + 1) ∧
      (¬(s.idleSince < now - c.idleSessionTimeout) →
        idleDecision c now st.idleActive s =
          (false, st.idleActive + 1, false) ∧
        (cleanupStep c now st s).2.idleActive = st.idleActive + 1)) ∧
    idleClosed cfgIdle5 tickNow poolIdle5 =
      [idleSess 3, idleSess 2, idleSess 1] ∧
    poolAfterTick cfgIdle5 tickNow poolIdle5 =
      [⟨5, 0, tickNow⟩, ⟨4, 0, tickNow⟩] ∧
    ageClosed cfgIdle5 tickNow poolIdle5 = [] := by
  refine ⟨?_, by decide, by decide, by decide⟩
  intro c now st s
  by_cases h1 : s.idleSince < now - c.idleSessionTimeout <;>
  by_cases h2 : c.minIdleSession ≤ st.idleActive <;>
  by_cases h5 : 0 < c.maxConnectionLifetime <;>
  cases h3 : ageExpired c now s <;>
  by_cases h4 : c.minIdleSessionForAge ≤ st.ageActive <;>
  simp [cleanupStep, idleDecision, ageDecision, idleExpired, h1, h2, h3,
    h4, h5]

/-- C2 witness: the general step characterization applied at the first
session of the concrete scenario — it is idle-expired with zero
retained, so it is reset and counted. -/
theorem idle_phase_retention_witness :
    idleDecision cfgIdle5 tickNow (0 : Int) (idleSess 5) = (false, 1, true) ∧
    (cleanupStep cfgIdle5 tickNow ⟨0, 0⟩ (idleSess 5)).2.idleActive = 1 :=
  (idle_phase_retention.1 cfgIdle5 tickNow ⟨0, 0⟩ (idleSess 5)).2.1
    (by decide) (by decide)

/-- C10: a session granted the idle-phase reset (idle-expired while the
idle retained count is still below the floor) is still evaluated by the
age check in the same step, and is marked for age-close when rotation is
enabled, it is age-expired and the age counter has reached its floor;
the idle counter still records it as retained. -/
theorem idle_protected_still_age_closed (c : ClientConfig) (now : Int)
    (st : ScanState) (s : Session)
    (hIdleExp : idleExpired c now s = true)
    (hProt : st.idleActive < c.minIdleSession)
    (hMax : 0 < c.maxConnectionLifetime)
    (hAgeExp : ageExpired c now s = true)
    (hCnt : c.minIdleSessionForAge ≤ st.ageActive) :
    (cleanupStep c now st s).1 = Decision.closeAge ∧
    (cleanupStep c now st s).2.idleActive = st.idleActive + 1 := by
  have hProt' : ¬c.minIdleSession ≤ st.idleActive := not_le.mpr hProt
  simp [cleanupStep, idleDecision, ageDecision, hIdleExp, hAgeExp, hMax,
    hCnt, hProt']

/-- C10 witness: a session idle since the epoch and created at the
epoch, at t = 100s with timeout 30s, idle floor 5, rotation 10s and age
floor 1 already consumed, is closed for age despite its idle lease. -/
theorem idle_protected_still_age_closed_witness :
    (cleanupStep cfgBoth tickNow stMid oldSess).1 = Decision.closeAge ∧
    (cleanupStep cfgBoth tickNow stMid oldSess).2.idleActive =
      stMid.idleActive + 1 :=
  idle_protected_still_age_closed cfgBoth tickNow stMid oldSess
    (by decide) (by decide) (by decide) (by decide) (by decide)

/-- C5 counterexample: a global config with lifetime 10s and jitter 50s
passes through the merge and `NewClient` unchanged — the effective
configuration reaching the pool manager violates
`connection_lifetime_jitter ≤ max_connection_lifetime`. -/
theorem effective_config_jitter_limit_violated :
    (effectiveConfig (some gBadJitter) optPlain).connectionLifetimeJitter =
      50 * second ∧
    (effectiveConfig (some gBadJitter) optPlain).maxConnectionLifetime =
      10 * second ∧
    ¬((effectiveConfig (some gBadJitter) optPlain).connectionLifetimeJitter ≤
        (effectiveConfig (some gBadJitter) optPlain).maxConnectionLifetime)
    := by
  refine ⟨by decide, by decide, by decide⟩

/-- C5 (amended): neither the merge nor `NewClient` validates the jitter
limit; the effective jitter and lifetime are exactly the winning layer's
values (override in seconds when non-null, else global), so the limit
`jitter ≤ max` holds precisely when those winning values satisfy it. -/
theorem effective_config_jitter_passthrough (g : SessionManagement)
    (opt : AnyTLSOption) :
    (effectiveConfig (some g) opt).connectionLifetimeJitter =
      specLayeredDur2 g.connectionLifetimeJitter
        (opt.sessionOverride.bind fun o => o.connectionLifetimeJitter) ∧
    (effectiveConfig (some g) opt).maxConnectionLifetime =
      specLayeredDur2 g.maxConnectionLifetime
        (opt.sessionOverride.bind fun o => o.maxConnectionLifetime) ∧
    ((effectiveConfig (some g) opt).connectionLifetimeJitter ≤
        (effectiveConfig (some g) opt).maxConnectionLifetime ↔
      specLayeredDur2 g.connectionLifetimeJitter
          (opt.sessionOverride.bind fun o => o.connectionLifetimeJitter) ≤
        specLayeredDur2 g.maxConnectionLifetime
          (opt.sessionOverride.bind fun o => o.maxConnectionLifetime)) := by
  obtain ⟨ci, ti, mi, ov⟩ := opt
  have e1 : (effectiveConfig (some g) ⟨ci, ti, mi, ov⟩).connectionLifetimeJitter
      = specLayeredDur2 g.connectionLifetimeJitter
          ((ov : Option SessionOverride).bind fun o =>
            o.connectionLifetimeJitter) := by
    cases ov with
    | none =>
      simp [effectiveConfig, mergeSessionConfig, newClientNormalize,
        specLayeredDur2]
    | some o =>
      cases hj : o.connectionLifetimeJitter <;>
        simp [effectiveConfig, mergeSessionConfig, newClientNormalize,
          specLayeredDur2, hj]
  have e2 : (effectiveConfig (some g) ⟨ci, ti, mi, ov⟩).maxConnectionLifetime
      = specLayeredDur2 g.maxConnectionLifetime
          ((ov : Option SessionOverride).bind fun o =>
            o.maxConnectionLifetime) := by
    cases ov with
    | none =>
      simp [effectiveConfig, mergeSessionConfig, newClientNormalize,
        specLayeredDur2]
    | some o =>
      cases hm : o.maxConnectionLifetime <;>
        simp [effectiveConfig, mergeSessionConfig, newClientNormalize,
          specLayeredDur2, hm]
  exact ⟨e1, e2, by rw [e1, e2]⟩

/-- C9: the merge resolves every field with fixed per-field priority —
non-null override (seconds for durations), else legacy per-proxy value
when `> 0` (seconds, only the three legacy fields have this layer), else
the global value; an absent global block behaves as the zero global
config. -/
theorem merge_layer_priority (g : SessionManagement) (opt : AnyTLSOption) :
    (mergeSessionConfig (some g) opt).idleSessionCheckInterval =
      specLayeredDur3 g.idleSessionCheckInterval opt.idleSessionCheckInterval
        (opt.sessionOverride.bind fun o => o.idleSessionCheckInterval) ∧
    (mergeSessionConfig (some g) opt).idleSessionTimeout =
      specLayeredDur3 g.idleSessionTimeout opt.idleSessionTimeout
        (opt.sessionOverride.bind fun o => o.idleSessionTimeout) ∧
    (mergeSessionConfig (some g) opt).minIdleSession =
      specLayeredCount3 g.minIdleSession opt.minIdleSession
        (opt.sessionOverride.bind fun o => o.minIdleSession) ∧
    (mergeSessionConfig (some g) opt).ensureIdleSession =
      specLayeredCount2 g.ensureIdleSession
        (opt.sessionOverride.bind fun o => o.ensureIdleSession) ∧
    (mergeSessionConfig (some g) opt).ensureIdleSessionCreateRate =
      specLayeredCount2 g.ensureIdleSessionCreateRate
        (opt.sessionOverride.bind fun o => o.ensureIdleSessionCreateRate) ∧
    (mergeSessionConfig (some g) opt).minIdleSessionForAge =
      specLayeredCount2 g.minIdleSessionForAge
        (opt.sessionOverride.bind fun o => o.minIdleSessionForAge) ∧
    (mergeSessionConfig (some g) opt).maxConnectionLifetime =
      specLayeredDur2 g.maxConnectionLifetime
        (opt.sessionOverride.bind fun o => o.maxConnectionLifetime) ∧
    (mergeSessionConfig (some g) opt).connectionLifetimeJitter =
      specLayeredDur2 g.connectionLifetimeJitter
        (opt.sessionOverride.bind fun o => o.connectionLifetimeJitter) ∧
    mergeSessionConfig none opt =
      mergeSessionConfig (some ⟨0, 0, 0, 0, 0, 0, 0, 0⟩) opt := by
  obtain ⟨ci, ti, mi, ov⟩ := opt
  cases ov with
  | none =>
    refine ⟨?_, ?_, ?_, ?_, ?_, ?_, ?_, ?_, ?_⟩ <;>
      simp [mergeSessionConfig, specLayeredDur3, specLayeredCount3,
        specLayeredDur2, specLayeredCount2]
  | some o =>
    obtain ⟨o1, o2, o3, o4, o5, o6, o7, o8⟩ := o
    refine ⟨?_, ?_, ?_, ?_, ?_, ?_, ?_, ?_, ?_⟩
    · cases o8 <;>
        simp [mergeSessionConfig, specLayeredDur3]
    · cases o7 <;>
        simp [mergeSessionConfig, specLayeredDur3]
    · cases o2 <;>
        simp [mergeSessionConfig, specLayeredCount3]
    · cases o1 <;>
        simp [mergeSessionConfig, specLayeredCount2]
    · cases o4 <;>
        simp [mergeSessionConfig, specLayeredCount2]
    · cases o3 <;>
        simp [mergeSessionConfig, specLayeredCount2]
    · cases o5 <;>
        simp [mergeSessionConfig, specLayeredDur2]
    · cases o6 <;>
        simp [mergeSessionConfig, specLayeredDur2]
    · simp [mergeSessionConfig]


/-- A step whose session is not age-eligible neither closes for age nor
moves the age counter. -/
theorem step_age_not_eligible (c : ClientConfig) (now : Int)
    (st : ScanState) (s : Session)
    (h : ageEligibleAt c now st s = false) :
    (cleanupStep c now st s).1 ≠ Decision.closeAge ∧
    (cleanupStep c now st s).2.ageActive = st.ageActive := by
  by_cases h1 : s.idleSince < now - c.idleSessionTimeout <;>
  by_cases h2 : c.minIdleSession ≤ st.idleActive <;>
  by_cases h5 : 0 < c.maxConnectionLifetime <;>
  cases h3 : ageExpired c now s <;>
  by_cases h4 : c.minIdleSessionForAge ≤ st.ageActive <;>
  first
  | (exfalso; revert h;
     simp [ageEligibleAt, idleExpired, h1, h2, h3, h5]; done)
  | simp [cleanupStep, idleDecision, ageDecision, idleExpired,
      h1, h2, h3, h4, h5]

/-- An age-eligible step below the age floor is protected: no age close,
counter incremented. -/
theorem step_age_protected (c : ClientConfig) (now : Int)
    (st : ScanState) (s : Session)
    (h : ageEligibleAt c now st s = true)
    (hlt : st.ageActive < c.minIdleSessionForAge) :
    (cleanupStep c now st s).1 ≠ Decision.closeAge ∧
    (cleanupStep c now st s).2.ageActive = st.ageActive + 1 := by
  have h4 : ¬c.minIdleSessionForAge ≤ st.ageActive := not_le.mpr hlt
  by_cases h1 : s.idleSince < now - c.idleSessionTimeout <;>
  by_cases h2 : c.minIdleSession ≤ st.idleActive <;>
  by_cases h5 : 0 < c.maxConnectionLifetime <;>
  cases h3 : ageExpired c now s <;>
  first
  | (exfalso; revert h;
     simp [ageEligibleAt, idleExpired, h1, h2, h3, h5]; done)
  | simp [cleanupStep, idleDecision, ageDecision, idleExpired,
      h1, h2, h3, h4, h5]

/-- If the age counter plus the number of age-eligible sessions still to
come stays below the age floor, no session of the scan is marked for age
close. -/
theorem scan_no_age_close (c : ClientConfig) (now : Int) :
    ∀ (pool : List Session) (st : ScanState),
      st.ageActive + (ageEligibleCount c now st pool : Int) <
        c.minIdleSessionForAge →
      ∀ p ∈ (cleanupScan c now st pool).1, p.2 ≠ Decision.closeAge := by
  intro pool
  induction pool with
  | nil =>
    intro st h p hp
    simp [cleanupScan] at hp
  | cons s rest ih =>
    intro st h p hp
    simp only [cleanupScan, List.mem_cons] at hp
    cases hAE : ageEligibleAt c now st s
    case false =>
      have hf := step_age_not_eligible c now st s hAE
      simp [ageEligibleCount, hAE] at h
      rcases hp with hph | hpt
      · rw [hph]; exact hf.1
      · refine ih (cleanupStep c now st s).2 ?_ p hpt
        rw [hf.2]
        omega
    case true =>
      have hcnt : (0 : Int) ≤
          (ageEligibleCount c now (cleanupStep c now st s).2 rest : Int) :=
        Int.ofNat_nonneg _
      simp [ageEligibleCount, hAE] at h
      have hlt : st.ageActive < c.minIdleSessionForAge := by omega
      have hf := step_age_protected c now st s hAE hlt
      rcases hp with hph | hpt
      · rw [hph]; exact hf.1
      · refine ih (cleanupStep c now st s).2 ?_ p hpt
        rw [hf.2]
        omega

/-- C3: in each step with rotation enabled, a session not marked for
idle-close is marked for age-close exactly when it is age-expired and
the age counter has reached `min_idle_session_for_age`; an age-expired
session below the floor is protected and increments the counter; a
non-expired session leaves the counter unchanged.  Consequently a tick
whose scan meets fewer age-eligible sessions than the floor closes
nothing for age. -/
theorem age_phase_retention :
    (∀ (c : ClientConfig) (now : Int) (aa : Int) (s : Session),
      0 < c.maxConnectionLifetime →
      ((ageDecision c now aa false s).1 = true ↔
        (ageExpired c now s = true ∧ c.minIdleSessionForAge ≤ aa)) ∧
      (ageExpired c now s = true → aa < c.minIdleSessionForAge →
        ageDecision c now aa false s = (false, aa + 1)) ∧
      (ageExpired c now s = false →
        ageDecision c now aa false s = (false, aa))) ∧
    (∀ (c : ClientConfig) (now : Int) (st : ScanState) (s : Session),
      ((cleanupStep c now st s).1 = Decision.closeAge ↔
        ((cleanupStep c now st s).1 ≠ Decision.closeIdle ∧
          0 < c.maxConnectionLifetime ∧ ageExpired c now s = true ∧
          c.minIdleSessionForAge ≤ st.ageActive)) ∧
      (ageExpired c now s = false →
        (cleanupStep c now st s).2.ageActive = st.ageActive)) ∧
    ∀ (c : ClientConfig) (now : Int) (pool : List Session),
      (ageEligibleCount c now ⟨0, 0⟩ pool : Int) < c.minIdleSessionForAge →
      ageClosed c now pool = [] := by
  refine ⟨?_, ?_, ?_⟩
  · intro c now aa s h5
    by_cases h4 : c.minIdleSessionForAge ≤ aa <;>
    cases h3 : ageExpired c now s <;>
    simp [ageDecision, h3, h4, h5]
  · intro c now st s
    by_cases h1 : s.idleSince < now - c.idleSessionTimeout <;>
    by_cases h2 : c.minIdleSession ≤ st.idleActive <;>
    by_cases h5 : 0 < c.maxConnectionLifetime <;>
    cases h3 : ageExpired c now s <;>
    by_cases h4 : c.minIdleSessionForAge ≤ st.ageActive <;>
    simp [cleanupStep, idleDecision, ageDecision, idleExpired, h1, h2,
      h3, h4, h5]
  · intro c now pool h
    unfold ageClosed
    rw [List.filterMap_eq_nil_iff]
    intro a ha
    have hne := scan_no_age_close c now pool ⟨0, 0⟩ (by simpa using h) a ha
    simp [hne]

/-- C3 witness: one age-expired, idle-fresh session with age floor 2 —
one eligible session is fewer than the floor, so the tick performs zero
age closes. -/
theorem age_phase_retention_witness :
    ageClosed cfgAge tickNow [agedSess] = [] :=
  age_phase_retention.2.2 cfgAge tickNow [agedSess] (by decide)

/-- Every operation other than `Close` preserves the pre-shutdown
invariant, provided the step does not pool an already-closed session
(the side condition needed because the proactive insertion path performs
no `IsClosed` check). -/
theorem opStep_preserves_inv {st st' : MState} (h : OpStep st st')
    (hi : MInv st)
    (hlive : ∀ s, s ∈ st.closed → s ∈ st'.idle → s ∈ st.idle) :
    MInv st' := by
  obtain ⟨hc, hreg, hcc, hic⟩ := hi
  cases h with
  | create s hnew =>
    refine ⟨hc, ?_, hcc.trans (Finset.subset_insert _ _), ?_⟩
    · have hs_not : s ∉ st.closed := fun hmem => hnew (hcc hmem)
      rw [hreg, Finset.insert_sdiff_of_not_mem _ hs_not]
    · exact hic.trans (Finset.subset_insert _ _)
  | returnToPool s hcr hncl hcanc =>
    refine ⟨hc, hreg, hcc, ?_⟩
    intro x hx
    rcases Finset.mem_insert.mp hx with rfl | hx'
    · rw [hreg]; exact Finset.mem_sdiff.mpr ⟨hcr, hncl⟩
    · exact hic hx'
  | proactiveInsert s hcr =>
    refine ⟨hc, hreg, hcc, ?_⟩
    intro x hx
    rcases Finset.mem_insert.mp hx with rfl | hx'
    · by_cases hxc : x ∈ st.closed
      · exact hic (hlive x hxc (Finset.mem_insert_self x st.idle))
      · rw [hreg]; exact Finset.mem_sdiff.mpr ⟨hcr, hxc⟩
    · exact hic hx'
  | sessionDie s hcr hncl =>
    refine ⟨hc, ?_, ?_, ?_⟩
    · rw [hreg]
      ext x
      simp only [Finset.mem_erase, Finset.mem_sdiff, Finset.mem_insert]
      tauto
    · intro x hx
      rcases Finset.mem_insert.mp hx with rfl | hx'
      · exact hcr
      · exact hcc hx'
    · intro x hx
      have hx' := Finset.mem_erase.mp hx
      exact Finset.mem_erase.mpr ⟨hx'.1, hic hx'.2⟩
  | removeIdle s hsi =>
    exact ⟨hc, hreg, hcc, fun x hx => hic (Finset.mem_of_mem_erase hx)⟩

/-- All states reachable without `Close` along an execution that never
pools an already-closed session satisfy the invariant. -/
theorem reachOpLive_inv (st : MState) (h : ReachOpLive st) : MInv st := by
  induction h with
  | init =>
    refine ⟨rfl, by simp [initState], by simp [initState],
      by simp [initState]⟩
  | step hr hs hlive ih => exact opStep_preserves_inv hs ih hlive

/-- C7 (amended): before `Close` is invoked, the idle pool is contained
in the session registry at every observable moment of any execution in
which no step inserts an already-closed session into the idle pool —
creation and registration, stream return-to-pool (which re-checks
`IsClosed`), the death hook and idle-pool removal preserve the
containment unconditionally, and the proactive insertion preserves it
when the inserted session is still live.  The code enforces no
`IsClosed` check on the proactive path and `Close` empties the registry
before draining the pool, so both exceptions are reachable (see the
counterexample). -/
theorem containment_before_close (st : MState) (h : ReachOpLive st) :
    st.idle ⊆ st.registry :=
  (reachOpLive_inv st h).2.2.2

/-- C7 witness: containment at the concrete reachable state in which
session 1 was created and returned to the pool (no session closed along
the trace, so the liveness side condition is vacuous). -/
theorem containment_before_close_witness :
    stOneIdle.idle ⊆ stOneIdle.registry := by
  have h1 : ReachOpLive initState := ReachOpLive.init
  have e1 : ({ initState with created := insert 1 initState.created, registry := insert 1 initState.registry } : MState) = stOneCreated := by decide
  have h2 : ReachOpLive stOneCreated :=
    e1 ▸ ReachOpLive.step h1 (OpStep.create initState 1 (by decide))
      (fun s hs _ => absurd hs (Finset.not_mem_empty s))
  have e2 : ({ stOneCreated with idle := insert 1 stOneCreated.idle } : MState) = stOneIdle := by decide
  have h3 : ReachOpLive stOneIdle :=
    e2 ▸ ReachOpLive.step h2
      (OpStep.returnToPool stOneCreated 1 (by decide) (by decide) rfl)
      (fun s hs _ => absurd hs (Finset.not_mem_empty s))
  exact containment_before_close stOneIdle h3

/-- C7 counterexample: the claim — containment at every observable
moment, preserved by every operation — fails twice on the code.  First,
creating session 1, returning it to the pool and performing the
lock-protected part of `Close` (cancel, snapshot, empty the registry)
reaches a state with session 1 pooled and the registry empty.  Second,
even before any `Close`: a session created by a proactive dial that dies
before the creator's unconditional pool insertion (its death hook having
already removed it from registry and pool) ends up pooled but
unregistered, with the manager still live. -/
theorem containment_violations :
    (Reach stCloseRace ∧ ¬(stCloseRace.idle ⊆ stCloseRace.registry)) ∧
    (ReachOp stProactiveRace ∧ stProactiveRace.cancelled = false ∧
      ¬(stProactiveRace.idle ⊆ stProactiveRace.registry)) := by
  refine ⟨⟨?_, by decide⟩, ?_, rfl, by decide⟩
  · have h1 : Reach initState := Reach.init
    have e1 : ({ initState with created := insert 1 initState.created, registry := insert 1 initState.registry } : MState) = stOneCreated := by decide
    have h2 : Reach stOneCreated :=
      e1 ▸ Reach.step h1 (Step.op (OpStep.create initState 1 (by decide)))
    have e2 : ({ stOneCreated with idle := insert 1 stOneCreated.idle } : MState) = stOneIdle := by decide
    have h3 : Reach stOneIdle :=
      e2 ▸ Reach.step h2
        (Step.op (OpStep.returnToPool stOneCreated 1 (by decide) (by decide) rfl))
    have e3 : ({ stOneIdle with cancelled := true, registry := (∅ : Finset ℕ) } : MState) = stCloseRace := by decide
    exact e3 ▸ Reach.step h3 (Step.closeMgr stOneIdle)
  · have h1 : ReachOp initState := ReachOp.init
    have e1 : ({ initState with created := insert 1 initState.created, registry := insert 1 initState.registry } : MState) = stOneCreated := by decide
    have h2 : ReachOp stOneCreated :=
      e1 ▸ ReachOp.step h1 (OpStep.create initState 1 (by decide))
    have e2 : ({ stOneCreated with closed := insert 1 stOneCreated.closed, idle := stOneCreated.idle.erase 1, registry := stOneCreated.registry.erase 1 } : MState) = stOneDead := by decide
    have h3 : ReachOp stOneDead :=
      e2 ▸ ReachOp.step h2
        (OpStep.sessionDie stOneCreated 1 (by decide) (by decide))
    have e3 : ({ stOneDead with idle := insert 1 stOneDead.idle } : MState) = stProactiveRace := by decide
    exact e3 ▸ ReachOp.step h3 (OpStep.proactiveInsert stOneDead 1 (by decide))

end AnyTLS
